import Mathlib

/-!
Shallow embedding of the `dtree` directory-tree simulator (src/src/lib.rs).

The Rust data types `DEnt`, `DTree`, `OsState` and the operations
`DTree::mkdir`, `DTree::with_subdir`, `DTree::with_subdir_mut`,
`DTree::find_child`, `DTree::paths`, `DTree::path_helper`,
`OsState::chdir`, `OsState::mkdir`, `OsState::paths` are translated to
Lean functions.  Mutation (`&mut self`) is modelled by explicit state
passing: an operation that mutates returns the updated value together
with its `Result`.  A Rust `panic!` is modelled by the `PanicOr` outcome
type, so that aborting executions are visible in the embedding.
-/

/-- Errors during directory interaction (`DirError` in the source). -/
inductive DirError where
  | SlashInName (s : String)
  | DirExists (s : String)
  | InvalidChild (s : String)
deriving DecidableEq, Repr

/-- Outcome of a computation that may `panic!` (Rust process abort). -/
inductive PanicOr (α : Type) where
  | panics (msg : String)
  | value (a : α)
deriving DecidableEq, Repr

mutual
/-- A directory tree: `pub struct DTree { pub children: Vec<DEnt> }`. -/
inductive DTree where
  | mk (children : List DEnt) : DTree
/-- A directory entry: `pub struct DEnt { pub name, pub subdir }`. -/
inductive DEnt where
  | mk (name : String) (subdir : DTree) : DEnt
end

def DTree.children : DTree → List DEnt
  | .mk cs => cs

def DEnt.name : DEnt → String
  | .mk n _ => n

def DEnt.subdir : DEnt → DTree
  | .mk _ s => s

/-- Operating system state: `pub struct OsState { pub dtree, pub cwd }`. -/
structure OsState where
  dtree : DTree
  cwd : List String

/-- Embedding of `DTree::new` / `DTree::default`: the empty tree. -/
def DTree.new : DTree := .mk []

/-- Embedding of `OsState::new` / `OsState::default`. -/
def OsState.new : OsState := ⟨DTree.new, []⟩

/-- Rust `name.contains("/")`: the name has a slash character. -/
def strContains (s : String) (c : Char) : Bool :=
  s.data.any (fun a => a == c)

/-- Embedding of `DEnt::new(name)`: a fresh entry with an empty subtree (always `Ok`). -/
def DEnt.new (name : String) : Except DirError DEnt :=
  .ok (DEnt.mk name DTree.new)

/-- The `found` loop shared by `DTree::mkdir` and `OsState::mkdir`:
`for n in &children { if n.name.eq(name) { found = true } }`. -/
def foundName : List DEnt → String → Bool
  | [], _ => false
  | n :: rest, name => if n.name == name then true else foundName rest name

/-- Embedding of `DTree::mkdir`.  Mutation of `&mut self` is modelled by returning the
updated tree alongside the `Result<()>`; on error the tree is returned
unchanged, exactly as the Rust leaves `self` untouched. -/
def DTree.mkdir (t : DTree) (name : String) : Except DirError Unit × DTree :=
  if strContains name '/' then
    (.error (.SlashInName "{0}: slash in name is invalid"), t)
  else
    let d : DEnt := DEnt.mk name DTree.new
    if foundName t.children name then
      (.error (.DirExists "{0}: directory exists"), t)
    else
      (.ok (), DTree.mk (t.children ++ [d]))

/-- The inner loop of `DTree::with_subdir`: scan `children` for the first
entry whose name equals `p`, returning its subtree. -/
def firstChildNamed : List DEnt → String → Option DTree
  | [], _ => none
  | d :: rest, p => if d.name == p then some d.subdir else firstChildNamed rest p

/-- The nested loops of `DTree::with_subdir`: for each `p` in `path` in
order, scan the children; at the first `(p, child)` match return
`Ok(f(child.subdir))`; if no component matches any child, `InvalidChild`. -/
def withSubdirLoop {R : Type} (cs : List DEnt) (f : DTree → R) :
    List String → Except DirError R
  | [] => .error (.InvalidChild "Invalid Child")
  | p :: rest =>
    match firstChildNamed cs p with
    | some sub => .ok (f sub)
    | none => withSubdirLoop cs f rest

/-- Embedding of `DTree::with_subdir`: the read-only visitor `f` takes the visited
subtree to the visitor result. -/
def DTree.with_subdir {R : Type} (t : DTree) (path : List String) (f : DTree → R) :
    Except DirError R :=
  withSubdirLoop t.children f path

/-- Embedding of `DTree::find_child`: linear scan of the children; `panic!("Invalid
child")` when no entry has name `p`. -/
def DTree.find_child (t : DTree) (p : String) : PanicOr DTree :=
  findChildLoop t.children p
where
  findChildLoop : List DEnt → String → PanicOr DTree
  | [], _ => .panics "Invalid child"
  | d :: rest, p => if p == d.name then .value d.subdir else findChildLoop rest p

/-- Embedding of `DTree::with_subdir_mut`.  The mutable visitor `f` is modelled as a
function from the visited tree to (visitor result, updated tree).  The
Rust body returns `Err(InvalidChild)` on an empty path, and otherwise
calls `self.find_child(p)` on the first component (which can panic),
discards its result and applies `f` to `self` — not to the child. -/
def DTree.with_subdir_mut {R : Type} (t : DTree) (path : List String)
    (f : DTree → R × DTree) : PanicOr (Except DirError R × DTree) :=
  match path with
  | [] => .value (.error (.InvalidChild "Invalid child in with sub dir"), t)
  | p :: _ =>
    match t.find_child p with
    | .panics msg => .panics msg
    | .value _ =>
      let rt := f t
      .value (.ok rt.1, rt.2)

mutual
/-- Embedding of `DTree::path_helper`: returns `"/"` for a childless node; otherwise a
loop over the children that OVERWRITES `cwd` on each iteration, so only
the last child survives. -/
def DTree.path_helper : DTree → String
  | .mk cs => if cs.isEmpty then "/" else pathHelperLoop "" cs
/-- The `for z in &self.children { cwd = format!(...) }` loop of
`DTree::path_helper`. -/
def pathHelperLoop : String → List DEnt → String
  | cwd, [] => cwd
  | _, .mk n sub :: rest => pathHelperLoop ("/" ++ n ++ DTree.path_helper sub) rest
end

/-- Embedding of `DTree::paths`: `"/"` when childless, then one entry
`"/" ++ name ++ path_helper(subdir)` per child. -/
def DTree.paths (t : DTree) : List String :=
  (if t.children.isEmpty then ["/"] else [])
    ++ t.children.map (fun n => "/" ++ n.name ++ n.subdir.path_helper)

/-- The inner loop of `OsState::chdir`: scan the root's children for `p`;
every match OVERWRITES `x` with that child's subtree. -/
def chdirInner (x : DTree) : List DEnt → String → DTree
  | [], _ => x
  | child :: rest, p =>
    chdirInner (if p == child.name then child.subdir else x) rest p

/-- The outer loop of `OsState::chdir` over the path components; each
component rescans the SAME root children list. -/
def chdirLoop (cs : List DEnt) : DTree → List String → DTree
  | x, [] => x
  | x, p :: rest => chdirLoop cs (chdirInner x cs p) rest

/-- Embedding of `OsState::chdir`: initialises `x` to the empty tree, runs the nested
loops over the original root's children, then unconditionally assigns
`self.dtree = x` and returns `Ok(())`.  `cwd` is never touched. -/
def OsState.chdir (s : OsState) (path : List String) :
    Except DirError Unit × OsState :=
  let x := chdirLoop s.dtree.children DTree.new path
  (.ok (), { s with dtree := x })

/-- Embedding of `OsState::mkdir`: same validation as `DTree::mkdir` but written out
against `self.dtree.children` directly (the root, not the cwd node). -/
def OsState.mkdir (s : OsState) (name : String) :
    Except DirError Unit × OsState :=
  if strContains name '/' then
    (.error (.SlashInName "Slash in name"), s)
  else
    let d : DEnt := DEnt.mk name DTree.new
    if foundName s.dtree.children name then
      (.error (.DirExists "Directory exists"), s)
    else
      (.ok (), { s with dtree := DTree.mk (s.dtree.children ++ [d]) })

/-- Embedding of `OsState::paths`: builds `retpaths` exactly as `DTree::paths` does on
the root, then `match retpaths.is_empty() { true => Ok(retpaths), _ =>
Err(InvalidChild) }`. -/
def OsState.paths (s : OsState) : Except DirError (List String) :=
  let retpaths :=
    (if s.dtree.children.isEmpty then ["/"] else [])
      ++ s.dtree.children.map (fun n => "/" ++ n.name ++ n.subdir.path_helper)
  if retpaths.isEmpty then .ok retpaths
  else .error (.InvalidChild "Invalid child in paths")

/-- An operation issued against an `OsState` session (used to quantify
over arbitrary call sequences). -/
inductive OsOp where
  | mkdirOp (name : String)
  | chdirOp (path : List String)

/-- Run a sequence of session operations, threading the state. -/
def OsState.run (s : OsState) : List OsOp → OsState
  | [] => s
  | .mkdirOp n :: rest => ((s.mkdir n).2).run rest
  | .chdirOp p :: rest => ((s.chdir p).2).run rest

/-- Sibling-name uniqueness at one node: no entry's name reoccurs among
the entries after it (`foundName` is the same scan the code uses). -/
def nodupNames : List DEnt → Bool
  | [] => true
  | e :: rest => !(foundName rest e.name) && nodupNames rest

mutual
/-- Data-model invariant of spec §3, at every node reachable from the
root: sibling names are pairwise distinct and no name contains the
path-separator character. -/
def DTree.invB : DTree → Bool
  | .mk cs => nodupNames cs && entsInvB cs
/-- The invariant for a list of entries: each name is slash-free and
each subtree satisfies the invariant. -/
def entsInvB : List DEnt → Bool
  | [] => true
  | .mk n sub :: rest => !(strContains n '/') && DTree.invB sub && entsInvB rest
end

@[simp] theorem DTree.children_mk (cs : List DEnt) : (DTree.mk cs).children = cs := rfl

@[simp] theorem DEnt.name_mk (n : String) (d : DTree) : (DEnt.mk n d).name = n := rfl

@[simp] theorem DEnt.subdir_mk (n : String) (d : DTree) : (DEnt.mk n d).subdir = d := rfl

theorem foundName_cons (e : DEnt) (rest : List DEnt) (name : String) :
    foundName (e :: rest) name = (e.name == name || foundName rest name) := by
  simp only [foundName]
  cases h : e.name == name <;> simp

theorem foundName_iff (cs : List DEnt) (name : String) :
    foundName cs name = true ↔ ∃ e ∈ cs, e.name = name := by
  induction cs with
  | nil => simp [foundName]
  | cons e rest ih =>
    simp only [foundName_cons, Bool.or_eq_true, beq_iff_eq, ih, List.mem_cons]
    constructor
    · rintro (h | ⟨x, hx, hn⟩)
      · exact ⟨e, Or.inl rfl, h⟩
      · exact ⟨x, Or.inr hx, hn⟩
    · rintro ⟨x, hx | hx, hn⟩
      · exact Or.inl (hx ▸ hn)
      · exact Or.inr ⟨x, hx, hn⟩

theorem foundName_eq_false (cs : List DEnt) (name : String)
    (h : ∀ e ∈ cs, e.name ≠ name) : foundName cs name = false := by
  rw [Bool.eq_false_iff]
  intro hc
  obtain ⟨e, he, hn⟩ := (foundName_iff cs name).mp hc
  exact h e he hn

theorem foundName_append (xs ys : List DEnt) (name : String) :
    foundName (xs ++ ys) name = (foundName xs name || foundName ys name) := by
  induction xs with
  | nil => simp [foundName]
  | cons e rest ih =>
    cases h : e.name == name <;> simp [foundName, h, ih]

/-- Claim C8: `create-child` (both `DTree::mkdir` and `OsState::mkdir`):
a name containing the separator fails with `SlashInName` leaving the
node unchanged; a fresh name succeeds, appending one new empty-subtree
entry (child count +1, nothing else affected); an immediate second
`create-child` with the same name fails with `DirExists` and changes
nothing. -/
theorem c8_create_child (t : DTree) (s : OsState) (name : String) :
    (strContains name '/' = true →
        t.mkdir name = (.error (.SlashInName "{0}: slash in name is invalid"), t)
      ∧ s.mkdir name = (.error (.SlashInName "Slash in name"), s))
  ∧ (strContains name '/' = false → (∀ e ∈ t.children, e.name ≠ name) →
        (t.mkdir name).1 = .ok ()
      ∧ (t.mkdir name).2.children = t.children ++ [DEnt.mk name (DTree.mk [])]
      ∧ (t.mkdir name).2.children.length = t.children.length + 1
      ∧ ((t.mkdir name).2.mkdir name).1 = .error (.DirExists "{0}: directory exists")
      ∧ ((t.mkdir name).2.mkdir name).2 = (t.mkdir name).2)
  ∧ (strContains name '/' = false → (∀ e ∈ s.dtree.children, e.name ≠ name) →
        (s.mkdir name).1 = .ok ()
      ∧ (s.mkdir name).2.dtree.children = s.dtree.children ++ [DEnt.mk name (DTree.mk [])]
      ∧ (s.mkdir name).2.dtree.children.length = s.dtree.children.length + 1
      ∧ ((s.mkdir name).2.mkdir name).1 = .error (.DirExists "Directory exists")
      ∧ ((s.mkdir name).2.mkdir name).2 = (s.mkdir name).2) := by
  refine ⟨fun hs1 => ?_, fun hs0 hfresh => ?_, fun hs0 hfresh => ?_⟩
  · constructor <;> simp [DTree.mkdir, OsState.mkdir, hs1]
  · have hf : foundName t.children name = false := foundName_eq_false _ _ hfresh
    have happ : foundName (t.children ++ [DEnt.mk name (DTree.mk [])]) name = true := by
      rw [foundName_append]
      simp [foundName]
    refine ⟨?_, ?_, ?_, ?_, ?_⟩ <;>
      simp [DTree.mkdir, DTree.new, hs0, hf, happ]
  · have hf : foundName s.dtree.children name = false := foundName_eq_false _ _ hfresh
    have happ : foundName (s.dtree.children ++ [DEnt.mk name (DTree.mk [])]) name = true := by
      rw [foundName_append]
      simp [foundName]
    refine ⟨?_, ?_, ?_, ?_, ?_⟩ <;>
      simp [OsState.mkdir, DTree.new, hs0, hf, happ]

/-- Witness for C8 at concrete inputs: the slash case at `"a/b"` and the
fresh-name case at `"a"` on the empty tree / fresh session. -/
theorem c8_create_child_witness :
    ((DTree.mk []).mkdir "a/b" = (.error (.SlashInName "{0}: slash in name is invalid"), DTree.mk [])
       ∧ OsState.new.mkdir "a/b" = (.error (.SlashInName "Slash in name"), OsState.new))
  ∧ ((DTree.mk []).mkdir "a").1 = .ok ()
  ∧ (OsState.new.mkdir "a").1 = .ok () :=
  ⟨(c8_create_child (DTree.mk []) OsState.new "a/b").1 (by decide),
   ((c8_create_child (DTree.mk []) OsState.new "a").2.1 (by decide) (by simp)).1,
   ((c8_create_child (DTree.mk []) OsState.new "a").2.2 (by decide) (by simp [OsState.new, DTree.new])).1⟩

/-- Claim C1: `DTree::paths` on the tree root → a → {b, c} is claimed to
return, up to order, exactly `"/a/b/"` and `"/a/c/"`.  The code instead
returns only `["/a/c/"]`: `path_helper` overwrites its accumulator on
each sibling, so the branch through `b` is dropped. -/
theorem c1_paths_collapses_branches :
    (DTree.mk [.mk "a" (.mk [.mk "b" (.mk []), .mk "c" (.mk [])])]).paths
      = ["/a/c/"] := rfl

/-- Claim C2: the end-to-end sequence mkdir "a"; chdir ["a"]; mkdir "b";
chdir ["b"]; mkdir "c"; chdir [] is claimed to end with
`paths() = Ok(["/a/b/c/"])`.  In the code every call does return `Ok`,
but `chdir` replaces the whole tree by the selected child's subtree (or
the empty tree), so the final state is the empty tree, and
`OsState::paths` then returns `Err(InvalidChild)`. -/
theorem c2_end_to_end_fails :
    (OsState.new.mkdir "a").1 = .ok ()
  ∧ ((OsState.new.mkdir "a").2.chdir ["a"]).1 = .ok ()
  ∧ (((OsState.new.mkdir "a").2.chdir ["a"]).2.mkdir "b").1 = .ok ()
  ∧ ((((OsState.new.mkdir "a").2.chdir ["a"]).2.mkdir "b").2.chdir ["b"]).1 = .ok ()
  ∧ (((((OsState.new.mkdir "a").2.chdir ["a"]).2.mkdir "b").2.chdir ["b"]).2.mkdir "c").1 = .ok ()
  ∧ ((((((OsState.new.mkdir "a").2.chdir ["a"]).2.mkdir "b").2.chdir ["b"]).2.mkdir "c").2.chdir []).1 = .ok ()
  ∧ ((((((OsState.new.mkdir "a").2.chdir ["a"]).2.mkdir "b").2.chdir ["b"]).2.mkdir "c").2.chdir []).2.dtree
      = DTree.mk []
  ∧ ((((((OsState.new.mkdir "a").2.chdir ["a"]).2.mkdir "b").2.chdir ["b"]).2.mkdir "c").2.chdir []).2.paths
      = .error (.InvalidChild "Invalid child in paths") :=
  ⟨rfl, rfl, rfl, rfl, rfl, rfl, rfl, rfl⟩

/-- Claim C3: `with_subdir_mut(["a"], f)` is claimed to apply the visitor
to the child `"a"`'s subtree, so that after `mkdir("a")` the call
`with_subdir_mut(["a"], |d| d.mkdir("b"))` leaves `paths() = ["/a/b/"]`.
The code applies the visitor to `self` instead: `b` is created at the
root, giving the sibling tree `{a, b}` whose paths are
`["/a/", "/b/"]`. -/
theorem c3_visitor_applied_to_self :
    (DTree.mk [.mk "a" (.mk [])]).with_subdir_mut ["a"] (fun d => d.mkdir "b")
      = .value (.ok (.ok ()), .mk [.mk "a" (.mk []), .mk "b" (.mk [])])
  ∧ (DTree.mk [.mk "a" (.mk []), .mk "b" (.mk [])]).paths = ["/a/", "/b/"] :=
  ⟨rfl, rfl⟩

/-- Claim C4: `OsState::chdir` with an unresolvable component is claimed
to return `Err(InvalidChild)` and leave the session unchanged.  The code
returns `Ok(())` and overwrites the tree with the freshly created empty
tree, destroying the existing directory `"a"`. -/
theorem c4_chdir_bad_component_ok_and_wipes :
    (OsState.mk (.mk [.mk "a" (.mk [])]) []).chdir ["x"]
      = (.ok (), OsState.mk (DTree.mk []) []) := rfl

/-- Claim C5: `with_subdir_mut` is claimed never to panic and to return
an `Err` on a bad path.  On a non-empty path whose first component is
not a child, `find_child` executes `panic!("Invalid child")`, aborting
the process. -/
theorem c5_with_subdir_mut_panics :
    (DTree.mk [.mk "a" (.mk [])]).with_subdir_mut ["x"] (fun d => ((), d))
      = .panics "Invalid child" := rfl

/-- Claim C6: `with_subdir` is claimed to fail with `InvalidChild`
exactly when the path is empty or its FIRST component is not a direct
child.  On the path `["x", "a"]`, whose first component `"x"` is not a
child, the code instead skips to the next component and succeeds,
visiting child `"a"`'s subtree. -/
theorem c6_invalid_first_component_not_error :
    (DTree.mk [.mk "a" (.mk [])]).with_subdir ["x", "a"] (fun d => d)
      = .ok (DTree.mk []) := rfl

/-- Claim C7: `OsState::paths` is claimed never to fail.  The code ends
with `match retpaths.is_empty() { true => Ok(retpaths), _ => Err(...) }`,
and `retpaths` is never empty (a childless root pushes `"/"`, a root
with children pushes one string per child), so the function returns
`Err(InvalidChild)` on EVERY state. -/
theorem c7_os_paths_always_errors (s : OsState) :
    s.paths = .error (.InvalidChild "Invalid child in paths") := by
  unfold OsState.paths
  cases h : s.dtree.children with
  | nil => simp
  | cons a l => simp

theorem entsInvB_append (xs ys : List DEnt) :
    entsInvB (xs ++ ys) = (entsInvB xs && entsInvB ys) := by
  induction xs with
  | nil => simp [entsInvB]
  | cons e rest ih =>
    cases e
    simp [entsInvB, ih, Bool.and_assoc]

theorem nodupNames_append_single (cs : List DEnt) (d : DEnt)
    (h1 : nodupNames cs = true) (h2 : foundName cs d.name = false) :
    nodupNames (cs ++ [d]) = true := by
  induction cs with
  | nil => simp [nodupNames, foundName]
  | cons e rest ih =>
    rw [foundName_cons] at h2
    simp only [Bool.or_eq_false_iff, beq_eq_false_iff_ne] at h2
    simp only [nodupNames, Bool.and_eq_true, Bool.not_eq_true'] at h1
    simp only [List.cons_append, nodupNames, Bool.and_eq_true, Bool.not_eq_true',
      List.append_eq]
    refine ⟨?_, ih h1.2 h2.2⟩
    rw [foundName_append, h1.1, foundName_cons]
    simp [foundName, Ne.symm h2.1]

theorem chdirInner_invB (cs : List DEnt) (p : String) (hcs : entsInvB cs = true) :
    ∀ x : DTree, x.invB = true → (chdirInner x cs p).invB = true := by
  induction cs with
  | nil => intro x hx; simpa [chdirInner] using hx
  | cons e rest ih =>
    cases e with
    | mk n sub =>
      simp only [entsInvB, Bool.and_eq_true] at hcs
      intro x hx
      simp only [chdirInner, DEnt.name_mk, DEnt.subdir_mk]
      refine ih hcs.2 _ ?_
      cases h : p == n
      · simpa [h] using hx
      · simpa [h] using hcs.1.2

theorem chdirLoop_invB (cs : List DEnt) (hcs : entsInvB cs = true) (path : List String) :
    ∀ x : DTree, x.invB = true → (chdirLoop cs x path).invB = true := by
  induction path with
  | nil => intro x hx; simpa [chdirLoop] using hx
  | cons p rest ih =>
    intro x hx
    simp only [chdirLoop]
    exact ih _ (chdirInner_invB cs p hcs x hx)

theorem DTree.invB_mk (cs : List DEnt) :
    (DTree.mk cs).invB = (nodupNames cs && entsInvB cs) := by
  simp [DTree.invB]

/-- Claim C9: `DTree::mkdir`, `OsState::mkdir` and `OsState::chdir`
preserve the data-model invariant (pairwise-distinct sibling names, no
separator inside a name, at every reachable node), whether the call
succeeds or fails.  `mkdir` checks the slash and the duplicate before
appending a fresh empty entry; `chdir` installs either the empty tree or
(a clone of) a subtree of the invariant-satisfying root. -/
theorem c9_invariant_preserved (t : DTree) (s : OsState) (name : String)
    (path : List String) (ht : t.invB = true) (hs : s.dtree.invB = true) :
    (t.mkdir name).2.invB = true
  ∧ (s.mkdir name).2.dtree.invB = true
  ∧ (s.chdir path).2.dtree.invB = true := by
  have hmk : ∀ cs : List DEnt, (DTree.mk cs).invB = true →
      strContains name '/' = false → foundName cs name = false →
      (DTree.mk (cs ++ [DEnt.mk name DTree.new])).invB = true := by
    intro cs hinv hs0 hf
    rw [DTree.invB_mk, Bool.and_eq_true] at hinv ⊢
    refine ⟨nodupNames_append_single cs _ hinv.1 (by simpa using hf), ?_⟩
    rw [entsInvB_append, Bool.and_eq_true]
    refine ⟨hinv.2, ?_⟩
    simp [entsInvB, DTree.new, hs0, DTree.invB, nodupNames]
  refine ⟨?_, ?_, ?_⟩
  · obtain ⟨cs⟩ := t
    by_cases h1 : strContains name '/'
    · simpa [DTree.mkdir, h1] using ht
    · by_cases h2 : foundName cs name
      · simpa [DTree.mkdir, h1, h2] using ht
      · have := hmk cs ht (by simpa using h1) (by simpa using h2)
        simpa [DTree.mkdir, h1, h2] using this
  · obtain ⟨d, w⟩ := s
    obtain ⟨cs⟩ := d
    by_cases h1 : strContains name '/'
    · simpa [OsState.mkdir, h1] using hs
    · by_cases h2 : foundName cs name
      · simpa [OsState.mkdir, h1, h2] using hs
      · have := hmk cs hs (by simpa using h1) (by simpa using h2)
        simpa [OsState.mkdir, h1, h2] using this
  · obtain ⟨d, w⟩ := s
    obtain ⟨cs⟩ := d
    rw [DTree.invB_mk, Bool.and_eq_true] at hs
    exact chdirLoop_invB cs (by simpa using hs.2) path DTree.new rfl

/-- Witness for C9: the invariant survives `mkdir "b"` and `chdir ["a"]`
on a session whose root holds the single directory `"a"`. -/
theorem c9_invariant_preserved_witness :
    ((DTree.mk [DEnt.mk "a" (DTree.mk [])]).mkdir "b").2.invB = true
  ∧ ((OsState.mk (DTree.mk [DEnt.mk "a" (DTree.mk [])]) []).mkdir "b").2.dtree.invB = true
  ∧ ((OsState.mk (DTree.mk [DEnt.mk "a" (DTree.mk [])]) []).chdir ["a"]).2.dtree.invB = true :=
  c9_invariant_preserved (DTree.mk [DEnt.mk "a" (DTree.mk [])])
    (OsState.mk (DTree.mk [DEnt.mk "a" (DTree.mk [])]) []) "b" ["a"]
    (by decide) (by decide)

theorem mkdir_cwd (s : OsState) (name : String) : (s.mkdir name).2.cwd = s.cwd := by
  by_cases h1 : strContains name '/' <;>
    by_cases h2 : foundName s.dtree.children name <;>
      simp [OsState.mkdir, h1, h2]

theorem run_cwd (ops : List OsOp) : ∀ s : OsState, (s.run ops).cwd = s.cwd := by
  induction ops with
  | nil => intro s; rfl
  | cons op rest ih =>
    intro s
    cases op with
    | mkdirOp n =>
      simp only [OsState.run]
      rw [ih, mkdir_cwd]
    | chdirOp p =>
      simp only [OsState.run]
      rw [ih]
      rfl

theorem chdirInner_cases (p : String) :
    ∀ (cs : List DEnt) (x : DTree),
      chdirInner x cs p = x ∨ ∃ e ∈ cs, chdirInner x cs p = e.subdir := by
  intro cs
  induction cs with
  | nil => intro x; exact Or.inl rfl
  | cons e rest ih =>
    intro x
    simp only [chdirInner]
    cases hpe : p == e.name with
    | false =>
      simp only [hpe, Bool.false_eq_true, if_false]
      rcases ih x with h | ⟨d, hd, hsub⟩
      · exact Or.inl h
      · exact Or.inr ⟨d, List.mem_cons_of_mem _ hd, hsub⟩
    | true =>
      simp only [hpe, if_true]
      rcases ih e.subdir with h | ⟨d, hd, hsub⟩
      · exact Or.inr ⟨e, List.mem_cons_self _ _, h⟩
      · exact Or.inr ⟨d, List.mem_cons_of_mem _ hd, hsub⟩

theorem chdirLoop_cases (cs : List DEnt) :
    ∀ (path : List String) (x : DTree),
      chdirLoop cs x path = x ∨ ∃ e ∈ cs, chdirLoop cs x path = e.subdir := by
  intro path
  induction path with
  | nil => intro x; exact Or.inl rfl
  | cons p rest ih =>
    intro x
    simp only [chdirLoop]
    rcases ih (chdirInner x cs p) with h | ⟨d, hd, hsub⟩
    · rw [h]; exact chdirInner_cases p cs x
    · exact Or.inr ⟨d, hd, hsub⟩

/-- Claim C10 (implicit frame property): `chdir`, `mkdir` and `paths`
never modify or consult `cwd` — it keeps its initial empty value over
every call sequence from `OsState::new` — and `chdir` acts solely by
overwriting `dtree`, installing either the fresh empty tree or the
subtree of one of the (old) root's children. -/
theorem c10_cwd_is_dead_state (s s1 s2 : OsState) (path : List String) (name : String)
    (ops : List OsOp) (h : s1.dtree = s2.dtree) :
    (s.chdir path).2.cwd = s.cwd
  ∧ (s.mkdir name).2.cwd = s.cwd
  ∧ (s.chdir path).1 = (Except.ok () : Except DirError Unit)
  ∧ (s1.chdir path).1 = (s2.chdir path).1
  ∧ (s1.chdir path).2.dtree = (s2.chdir path).2.dtree
  ∧ (s1.mkdir name).1 = (s2.mkdir name).1
  ∧ (s1.mkdir name).2.dtree = (s2.mkdir name).2.dtree
  ∧ s1.paths = s2.paths
  ∧ (OsState.new.run ops).cwd = []
  ∧ (s.chdir path).2 = OsState.mk (chdirLoop s.dtree.children DTree.new path) s.cwd
  ∧ ((s.chdir path).2.dtree = DTree.new
       ∨ ∃ e ∈ s.dtree.children, (s.chdir path).2.dtree = e.subdir) := by
  obtain ⟨d1, w1⟩ := s1
  obtain ⟨d2, w2⟩ := s2
  have h' : d1 = d2 := h
  subst h'
  refine ⟨rfl, mkdir_cwd s name, rfl, rfl, rfl, ?_, ?_, rfl, run_cwd ops OsState.new, rfl, ?_⟩
  · by_cases h1 : strContains name '/' <;>
      by_cases h2 : foundName d1.children name <;>
        simp [OsState.mkdir, h1, h2]
  · by_cases h1 : strContains name '/' <;>
      by_cases h2 : foundName d1.children name <;>
        simp [OsState.mkdir, h1, h2]
  · exact chdirLoop_cases s.dtree.children path DTree.new

/-- Witness for C10: sessions holding the directory `"a"` with various
`cwd` values; `chdir ["a"]` and `mkdir "b"` behave identically on all of
them, leave `cwd` untouched, and a two-operation run from `OsState.new`
ends with the empty `cwd`. -/
theorem c10_cwd_is_dead_state_witness :
    ((OsState.mk (DTree.mk [DEnt.mk "a" (DTree.mk [])]) ["w"]).chdir ["a"]).2.cwd = ["w"]
  ∧ ((OsState.mk (DTree.mk [DEnt.mk "a" (DTree.mk [])]) ["w"]).mkdir "b").2.cwd = ["w"]
  ∧ ((OsState.mk (DTree.mk [DEnt.mk "a" (DTree.mk [])]) ["w"]).chdir ["a"]).1
      = (Except.ok () : Except DirError Unit)
  ∧ ((OsState.mk (DTree.mk [DEnt.mk "a" (DTree.mk [])]) []).chdir ["a"]).1
      = ((OsState.mk (DTree.mk [DEnt.mk "a" (DTree.mk [])]) ["q"]).chdir ["a"]).1
  ∧ ((OsState.mk (DTree.mk [DEnt.mk "a" (DTree.mk [])]) []).chdir ["a"]).2.dtree
      = ((OsState.mk (DTree.mk [DEnt.mk "a" (DTree.mk [])]) ["q"]).chdir ["a"]).2.dtree
  ∧ ((OsState.mk (DTree.mk [DEnt.mk "a" (DTree.mk [])]) []).mkdir "b").1
      = ((OsState.mk (DTree.mk [DEnt.mk "a" (DTree.mk [])]) ["q"]).mkdir "b").1
  ∧ ((OsState.mk (DTree.mk [DEnt.mk "a" (DTree.mk [])]) []).mkdir "b").2.dtree
      = ((OsState.mk (DTree.mk [DEnt.mk "a" (DTree.mk [])]) ["q"]).mkdir "b").2.dtree
  ∧ (OsState.mk (DTree.mk [DEnt.mk "a" (DTree.mk [])]) []).paths
      = (OsState.mk (DTree.mk [DEnt.mk "a" (DTree.mk [])]) ["q"]).paths
  ∧ (OsState.new.run [OsOp.mkdirOp "a", OsOp.chdirOp ["a"]]).cwd = []
  ∧ ((OsState.mk (DTree.mk [DEnt.mk "a" (DTree.mk [])]) ["w"]).chdir ["a"]).2
      = OsState.mk
          (chdirLoop (DTree.mk [DEnt.mk "a" (DTree.mk [])]).children DTree.new ["a"]) ["w"]
  ∧ (((OsState.mk (DTree.mk [DEnt.mk "a" (DTree.mk [])]) ["w"]).chdir ["a"]).2.dtree = DTree.new
       ∨ ∃ e ∈ (DTree.mk [DEnt.mk "a" (DTree.mk [])]).children,
           ((OsState.mk (DTree.mk [DEnt.mk "a" (DTree.mk [])]) ["w"]).chdir ["a"]).2.dtree
             = e.subdir) :=
  c10_cwd_is_dead_state
    (OsState.mk (DTree.mk [DEnt.mk "a" (DTree.mk [])]) ["w"])
    (OsState.mk (DTree.mk [DEnt.mk "a" (DTree.mk [])]) [])
    (OsState.mk (DTree.mk [DEnt.mk "a" (DTree.mk [])]) ["q"])
    ["a"] "b" [OsOp.mkdirOp "a", OsOp.chdirOp ["a"]] rfl
